import Mathlib

/-!
Shallow embedding of the `lock` crate (src/lock/src/lock.rs and
src/lock/src/spinlock.rs): a generic lock/guard wrapper over a raw-lock
capability contract, plus the concrete SpinLock implementation.

Modelling conventions:
* The SpinLock state is its single `AtomicBool` flag, embedded as `Bool`
  (`false` = Unlocked, `true` = Locked).
* Atomic operations are pure state transformers; the memory ordering
  arguments of the source are carried explicitly so that the ordering each
  call site uses is part of the embedded definition.
* `Result<T, ()>` is embedded as `Except Unit T`; the unit token `()` of
  SpinLock is `Unit`.
* Method bodies that perform raw `unlock` calls additionally return the
  list of unlock invocations (tokens passed) they perform, so that
  exactly-once-release properties are statements about the embedding.
* The spin loop of `SpinLock::lock` is embedded as a function of the list
  of flag values the successive compare-and-swap attempts observe (the
  environment interleaving); `none` means the observations ran out while
  the loop was still spinning.
-/

/-- Memory orderings used by the source (`core::sync::atomic::Ordering`). -/
inductive MemOrdering : Type
  | relaxed
  | acquire
  | release
  | acqrel
  | seqcst
deriving DecidableEq, Repr

/-- `AtomicBool::compare_and_swap(current, new, ord)` on a flag holding
`flag`: returns the previous value and the new flag state; the store
happens iff the previous value equals `current`. -/
def AtomicBool.compare_and_swap (flag current new : Bool)
    (_ord : MemOrdering) : Bool × Bool :=
  if flag = current then (flag, new) else (flag, flag)

/-- `AtomicBool::store(v, ord)`: unconditionally overwrites the flag. -/
def AtomicBool.store (_flag : Bool) (v : Bool) (_ord : MemOrdering) : Bool :=
  v

/-- `impl Default for SpinLock` (spinlock.rs lines 18-24): the fresh state
is `AtomicBool::new(false)`, i.e. Unlocked. -/
def SpinLock.default : Bool :=
  false

/-- `SpinLock::unlock` (spinlock.rs lines 49-51):
`self.inner.store(false, Ordering::Release)`; the token argument is
ignored. Returns the new flag state. -/
def SpinLock.unlock (flag : Bool) (_token : Unit) : Bool :=
  AtomicBool.store flag false MemOrdering.release

/-- `SpinLock::try_lock` (spinlock.rs lines 58-64): a single
`compare_and_swap(false, true, Ordering::Acquire)`; `Ok(())` iff the
previous value was `false`. Returns the result together with the new flag
state. -/
def SpinLock.try_lock (flag : Bool) : Except Unit Unit × Bool :=
  let r := AtomicBool.compare_and_swap flag false true MemOrdering.acquire
  if !r.1 then (Except.ok (), r.2) else (Except.error (), r.2)

/-- Backoff state of `crossbeam_utils::Backoff` (an external collaborator
of this crate, available only through the spec's description: each
consecutive failed attempt increases the wait — spin count, then
potentially yielding — up to an implementation-defined ceiling). The
state is the step counter, starting at 0 after `Backoff::new()`. -/
def Backoff.ceiling : Nat :=
  10

/-- The wait performed by the k-th consecutive `snooze` call: doubles with
each step up to the ceiling. -/
def Backoff.wait (step : Nat) : Nat :=
  2 ^ min step Backoff.ceiling

/-- `SpinLock::lock` loop body (spinlock.rs lines 34-43):
`while self.inner.compare_and_swap(false, true, Ordering::Acquire) { backoff.snooze() }`.
`obs` is the flag value each successive compare-and-swap attempt observes
(interference by other threads between attempts may change it); `step` is
the backoff step counter. On the first attempt that observes Unlocked the
compare-and-swap succeeds and the loop exits; the result is the list of
backoff waits performed (one per failed attempt) and the flag state the
successful compare-and-swap left behind. `none`: every observed attempt
failed, the loop is still spinning. -/
def SpinLock.lockAux : List Bool → Nat → Option (List Nat × Bool)
  | [], _ => none
  | b :: rest, step =>
    let r := AtomicBool.compare_and_swap b false true MemOrdering.acquire
    if r.1 then
      match SpinLock.lockAux rest (step + 1) with
      | none => none
      | some (ws, f) => some (Backoff.wait step :: ws, f)
    else
      some ([], r.2)

/-- `SpinLock::lock` (spinlock.rs lines 34-43): run the spin loop with a
fresh `Backoff` (step counter 0). The unit token the source returns is
implicit (the Token type of SpinLock is `()`). -/
def SpinLock.lock (obs : List Bool) : Option (List Nat × Bool) :=
  SpinLock.lockAux obs 0

/-- The raw-lock capability contract (`trait RawLock` / `RawTryLock`,
lock.rs lines 18-31), as the record of operations the generic wrapper
consumes. `S` is the lock-state type, `τ` the token type. `lockFn` is the
blocking acquire restricted to the runs in which it returns (for SpinLock:
it returns `none` from a state where it would spin, see `SpinLock.lock`
for the full loop). -/
structure RawLockOps (S τ : Type) where
  dflt : S
  lockFn : S → Option (τ × S)
  tryLockFn : S → Except Unit (τ × S)
  unlockFn : S → τ → S

/-- The SpinLock instance of the contract (spinlock.rs lines 26-65),
specialised to the interference-free runs of `lock` (a single
compare-and-swap attempt against the current flag). -/
def SpinLock.ops : RawLockOps Bool Unit where
  dflt := SpinLock.default
  lockFn := fun s =>
    match SpinLock.lock [s] with
    | none => none
    | some (_, f) => some ((), f)
  tryLockFn := fun s =>
    match SpinLock.try_lock s with
    | (Except.ok t, f) => Except.ok (t, f)
    | (Except.error e, _) => Except.error e
  unlockFn := SpinLock.unlock

/-- `Lock<L, T>` (lock.rs lines 38-42): the lock-state of kind `L` paired
with the protected data in an `UnsafeCell`. -/
structure Lock (S T : Type) where
  lock : S
  data : T

/-- `Lock::new` (lock.rs lines 66-72): builds the lock kind via
`L::default()` and stores the data. -/
def Lock.new (ops : RawLockOps S τ) (data : T) : Lock S T :=
  { lock := ops.dflt, data := data }

/-- `Lock::into_inner` (lock.rs lines 76-78): `self.data.into_inner()` —
the data is returned directly; no lock operation touches the flag. -/
def Lock.into_inner (l : Lock S T) : T :=
  l.data

/-- `Lock::get_mut` (lock.rs lines 117-119): direct access to the data,
bypassing the lock. -/
def Lock.get_mut (l : Lock S T) : T :=
  l.data

/-- `LockGuard<'s, L, T>` (lock.rs lines 140-144): a borrow of the `Lock`
(embedded as the lock's address, the `usize` that `raw`/`into_raw`
expose) together with the token stored at creation. -/
structure LockGuard (τ : Type) where
  lockAddr : Nat
  token : τ

/-- `Drop for LockGuard` (lock.rs lines 158-164): the body is the single
call `self.lock.lock.unlock(self.token.clone())`. The embedding returns
the new raw-lock state together with the list of tokens passed to raw
`unlock` calls performed by the body (`Clone` for the embedded token
types duplicates the value). -/
def LockGuard.drop (ops : RawLockOps S τ) (g : LockGuard τ) (s : S) :
    S × List τ :=
  (ops.unlockFn s g.token, [g.token])

/-- `LockGuard::into_raw` (lock.rs lines 186-190): returns the lock's
address and `mem::forget`s the guard, so the body performs no raw
`unlock` call and leaves the lock state untouched. -/
def LockGuard.into_raw (g : LockGuard τ) (s : S) : Nat × S × List τ :=
  (g.lockAddr, s, [])

/-- `LockGuard::from_raw` (lock.rs lines 192-198): reconstructs a guard
from a lock address and a token. -/
def LockGuard.from_raw (data : Nat) (token : τ) : LockGuard τ :=
  { lockAddr := data, token := token }

/-- `Lock::lock` (lock.rs lines 84-95): acquire via the raw lock, wrap
the returned token into a guard borrowing `self` (at address `addr`).
`none` when the raw acquire does not return (blocks). -/
def Lock.lockOp (ops : RawLockOps S τ) (addr : Nat) (l : Lock S T) :
    Option (LockGuard τ × Lock S T) :=
  match ops.lockFn l.lock with
  | none => none
  | some (token, s) =>
    some ({ lockAddr := addr, token := token }, { l with lock := s })

/-- `Lock::try_lock` (lock.rs lines 99-105):
`self.lock.try_lock().map(|token| LockGuard { .. })`. -/
def Lock.try_lockOp (ops : RawLockOps S τ) (addr : Nat) (l : Lock S T) :
    Except Unit (LockGuard τ × Lock S T) :=
  match ops.tryLockFn l.lock with
  | Except.ok (token, s) =>
    Except.ok ({ lockAddr := addr, token := token }, { l with lock := s })
  | Except.error e => Except.error e

/-!
Interleaving model for one `Lock<SpinLock, T>` shared by `n` threads.
Each thread executes the client protocol of the wrapper: call
`Lock::lock` (a sequence of atomic compare-and-swap attempts on the
flag, spinlock.rs line 40), enter the critical section holding the
returned `LockGuard`, and eventually drop the guard, which calls
`SpinLock::unlock` (store `false`, spinlock.rs line 50). Each atomic
instruction is one step; steps of different threads interleave
arbitrarily.
-/

/-- The phase a thread is in with respect to the one shared lock:
not holding any guard (idle, possibly between failed attempts inside the
spin loop), or holding a live `LockGuard` (a granted acquisition). -/
inductive ThreadPhase : Type
  | idle
  | holding
deriving DecidableEq, Repr

/-- Global configuration: the SpinLock flag plus each thread's phase. -/
structure SysConfig (n : Nat) where
  flag : Bool
  th : Fin n → ThreadPhase

/-- The initial configuration: a freshly constructed
`Lock::<SpinLock, T>::new` (flag `SpinLock.default`), no guards. -/
def SysConfig.init (n : Nat) : SysConfig n :=
  { flag := SpinLock.default, th := fun _ => ThreadPhase.idle }

/-- One atomic step of the system. `acquire`: thread `i`'s
compare-and-swap attempt (from `SpinLock::lock` or `SpinLock::try_lock`)
observes `false` and succeeds, so `Lock::lock`/`Lock::try_lock` returns a
guard to `i`. `casFail`: the attempt observes `true` and leaves the flag
unchanged (thread keeps spinning or `try_lock` reports failure).
`release`: thread `i` drops its guard, whose `Drop` impl calls
`SpinLock::unlock`, storing `false`. -/
inductive SysStep {n : Nat} : SysConfig n → SysConfig n → Prop
  | acquire (c : SysConfig n) (i : Fin n)
      (hidle : c.th i = ThreadPhase.idle)
      (hflag : c.flag = false) :
      SysStep c
        { flag := (AtomicBool.compare_and_swap c.flag false true
            MemOrdering.acquire).2,
          th := Function.update c.th i ThreadPhase.holding }
  | casFail (c : SysConfig n) (i : Fin n)
      (hidle : c.th i = ThreadPhase.idle)
      (hflag : c.flag = true) :
      SysStep c
        { flag := (AtomicBool.compare_and_swap c.flag false true
            MemOrdering.acquire).2,
          th := c.th }
  | release (c : SysConfig n) (i : Fin n)
      (hhold : c.th i = ThreadPhase.holding) :
      SysStep c
        { flag := SpinLock.unlock c.flag (),
          th := Function.update c.th i ThreadPhase.idle }

/-- Configurations reachable from the initial one by interleaved steps. -/
inductive SysReachable {n : Nat} : SysConfig n → Prop
  | init : SysReachable (SysConfig.init n)
  | step {c c' : SysConfig n} : SysReachable c → SysStep c c' → SysReachable c'

/-- The mutual-exclusion invariant: a holder implies the flag is Locked,
and there is at most one holder. -/
def MutexInv {n : Nat} (c : SysConfig n) : Prop :=
  (∀ i : Fin n, c.th i = ThreadPhase.holding → c.flag = true) ∧
  (∀ i j : Fin n, c.th i = ThreadPhase.holding →
    c.th j = ThreadPhase.holding → i = j)

/-!
Send/Sync markers. In Rust, whether a type may be transferred to another
thread (`Send`) or shared by reference between threads (`Sync`) is
decided by trait impls; the source declares them explicitly for
`Lock<L, T>` (lock.rs lines 55-56) and `LockGuard<'s, L, T>` (lock.rs
lines 146-147). We embed the declared impls as functions from the marker
pair of the protected type `T` to the marker pair of the wrapper type.
-/

/-- The `Send`/`Sync` capabilities of a type. -/
structure Markers where
  send : Bool
  sync : Bool
deriving DecidableEq, Repr

/-- lock.rs lines 55-56:
`unsafe impl<L: RawLock, T: Send> Send for Lock<L, T>` and
`unsafe impl<L: RawLock, T: Send> Sync for Lock<L, T>`: the wrapper is
transferable and shareable exactly when `T` is `Send`. -/
def Lock.markers (t : Markers) : Markers :=
  { send := t.send, sync := t.send }

/-- lock.rs lines 146-147:
`unsafe impl<'s, L: RawLock, T> Send for LockGuard<'s, L, T>` (no bound
on `T` at all) and
`unsafe impl<'s, L: RawLock, T: Send + Sync> Sync for LockGuard<'s, L, T>`. -/
def LockGuard.markers (t : Markers) : Markers :=
  { send := true, sync := t.send && t.sync }

/-!
Theorems. Each claim of the specification is settled by one theorem below;
auxiliary lemmas precede the claim theorems.
-/

/-- C3: `SpinLock::try_lock` performs a single compare-and-swap attempt
(its body is one `compare_and_swap` with no loop): it returns success — a
unit token — if and only if the flag was Unlocked and the call transitions
it to Locked; on failure it returns the diagnostic-free marker `Err(())`
and leaves the flag unchanged; being a total function of the flag, it
never blocks. The wrapper `Lock::try_lock` propagates success and failure
unchanged. -/
theorem try_lock_single_cas (flag : Bool) :
    ((SpinLock.try_lock flag).1 = Except.ok () ↔
      flag = false ∧ (SpinLock.try_lock flag).2 = true) ∧
    ((SpinLock.try_lock flag).1 = Except.error () ↔ flag = true) ∧
    ((SpinLock.try_lock flag).1 = Except.error () →
      (SpinLock.try_lock flag).2 = flag) := by
  cases flag <;> simp [SpinLock.try_lock, AtomicBool.compare_and_swap]

/-- C4: for every prior flag state and every token, `SpinLock::unlock` is
exactly the atomic store of `false` (Unlocked) with release ordering; it
ignores the token, and after it returns the flag is Unlocked. -/
theorem unlock_stores_false_release (flag : Bool) (t u : Unit) :
    SpinLock.unlock flag t = AtomicBool.store flag false MemOrdering.release ∧
    SpinLock.unlock flag t = false ∧
    SpinLock.unlock flag t = SpinLock.unlock flag u :=
  ⟨rfl, rfl, rfl⟩

/-- C10: `SpinLock::unlock` checks nothing at runtime: from any prior
flag state — including the already-Unlocked state reached by a duplicate
release — it unconditionally stores Unlocked and returns (it is a total
function, with no panic and no error path), and composing it with itself
yields the same Unlocked state as a single call. -/
theorem unlock_unchecked_idempotent (flag : Bool) (t u : Unit) :
    SpinLock.unlock flag t = false ∧
    SpinLock.unlock false t = false ∧
    SpinLock.unlock (SpinLock.unlock flag t) u = SpinLock.unlock flag t :=
  ⟨rfl, rfl, rfl⟩

/-- C7: for every value `v`, `Lock::new(v).into_inner()` returns exactly
`v`; `into_inner` is the plain data projection (it performs no acquire
and no release — `self.data.into_inner()` is its whole body), and a
never-acquired Lock still carries the default (Unlocked) lock state when
consumed; in particular a Lock over `42` yields `42`. -/
theorem into_inner_new (S τ T : Type) (ops : RawLockOps S τ) (v : T) :
    (Lock.new ops v).into_inner = v ∧
    (∀ l : Lock S T, l.into_inner = l.data) ∧
    (Lock.new ops v).lock = ops.dflt ∧
    (Lock.new SpinLock.ops (42 : Nat)).into_inner = 42 ∧
    (Lock.new SpinLock.ops (42 : Nat)).lock = false :=
  ⟨rfl, fun _ => rfl, rfl, rfl, rfl⟩

/-- C8: the default construction of SpinLock yields the flag Unlocked
(`AtomicBool::new(false)`), with no construction inputs, and `Lock::new`
builds its lock kind via exactly this default state, so a fresh
`Lock<SpinLock, T>` starts Unlocked. -/
theorem default_fresh_unlocked (T : Type) (v : T) :
    SpinLock.default = false ∧
    SpinLock.ops.dflt = false ∧
    (Lock.new SpinLock.ops v).lock = false :=
  ⟨rfl, rfl, rfl⟩

/-- C9: `into_raw` returns the identity (address) of the borrowed Lock,
performs no raw unlock, and leaves the raw-lock state untouched (the lock
remains held); `from_raw` with that value and a token rebuilds a guard
for the same Lock carrying that token; dropping the rebuilt guard
performs the pending release: exactly one raw unlock with that token. -/
theorem into_raw_from_raw (S τ : Type) (ops : RawLockOps S τ)
    (g : LockGuard τ) (s : S) (t : τ) :
    (LockGuard.into_raw g s).1 = g.lockAddr ∧
    (LockGuard.into_raw g s).2.1 = s ∧
    (LockGuard.into_raw g s).2.2 = [] ∧
    LockGuard.from_raw (LockGuard.into_raw g s).1 t =
      { lockAddr := g.lockAddr, token := t } ∧
    LockGuard.drop ops (LockGuard.from_raw (LockGuard.into_raw g s).1 t) s =
      (ops.unlockFn s t, [t]) :=
  ⟨rfl, rfl, rfl, rfl, rfl⟩

/-- C5: evaluation of the declared thread-affinity markers. The source
declares `unsafe impl<'s, L, T> Send for LockGuard<'s, L, T>` with no
bound on `T` (lock.rs line 146), so the guard type is marked transferable
to other threads for every protected type — even one that is neither
`Send` nor `Sync` — although the guard's own `_marker` field is commented
`!Send + !Sync` (lock.rs line 143) and the spec requires the guard to be
thread-confined. The `Sync` marker of the guard and both markers of the
`Lock` wrapper do follow the protected type as the spec describes. -/
theorem lockguard_markers_eval :
    (LockGuard.markers { send := false, sync := false }).send = true ∧
    (LockGuard.markers { send := true, sync := true }).send = true ∧
    ((LockGuard.markers { send := true, sync := true }).sync = true ∧
      (LockGuard.markers { send := false, sync := false }).sync = false) ∧
    (Lock.markers { send := true, sync := false } =
      { send := true, sync := true } ∧
      Lock.markers { send := false, sync := true } =
      { send := false, sync := false }) := by
  decide

/-- C2: every guard created by `Lock::lock` or `Lock::try_lock` stores
exactly the token returned by the raw `lock()`/`try_lock()` call that
created it, and its destruction (`Drop::drop`) performs exactly one raw
`unlock` invocation — never zero, never more than one — passing exactly
that stored token. -/
theorem guard_release_exactly_once (S T τ : Type) (ops : RawLockOps S τ)
    (addr : Nat) (l : Lock S T) (s s2 : S) (g : LockGuard τ)
    (l' : Lock S T) (tok : τ)
    (hcreated :
      (ops.lockFn l.lock = some (tok, s2) ∧
        Lock.lockOp ops addr l = some (g, l')) ∨
      (ops.tryLockFn l.lock = Except.ok (tok, s2) ∧
        Lock.try_lockOp ops addr l = Except.ok (g, l'))) :
    g.token = tok ∧
    (LockGuard.drop ops g s).2 = [tok] ∧
    ((LockGuard.drop ops g s).2).length = 1 ∧
    (LockGuard.drop ops g s).1 = ops.unlockFn s tok := by
  have htok : g.token = tok := by
    rcases hcreated with ⟨hraw, hop⟩ | ⟨hraw, hop⟩
    · unfold Lock.lockOp at hop
      rw [hraw] at hop
      simp only [Option.some.injEq, Prod.mk.injEq] at hop
      rw [← hop.1]
    · unfold Lock.try_lockOp at hop
      rw [hraw] at hop
      simp only [Except.ok.injEq, Prod.mk.injEq] at hop
      rw [← hop.1]
  refine ⟨htok, ?_, ?_, ?_⟩ <;> simp [LockGuard.drop, htok]

/-- Witness for C2 at a concrete input: a `Lock<SpinLock, Nat>` over `0`
at address `7`, acquired from the Unlocked state; the guard's drop
performs the single unlock with the unit token. -/
theorem guard_release_exactly_once_witness :
    ((LockGuard.drop SpinLock.ops
      { lockAddr := 7, token := () } true).2).length = 1 :=
  (guard_release_exactly_once Bool Nat Unit SpinLock.ops 7
    (Lock.new SpinLock.ops 0) true true
    { lockAddr := 7, token := () } { lock := true, data := 0 } ()
    (Or.inl ⟨rfl, rfl⟩)).2.2.1

/-- The mutual-exclusion invariant holds in every reachable configuration:
a holder implies the flag is Locked, and holders are unique. Proved by
induction over the interleaved executions. -/
theorem sysReachable_mutexInv {n : Nat} {c : SysConfig n}
    (h : SysReachable c) : MutexInv c := by
  induction h with
  | init =>
    refine ⟨?_, ?_⟩
    · intro i hi
      simp [SysConfig.init] at hi
    · intro i j hi _
      simp [SysConfig.init] at hi
  | step _ hs ih =>
    rename_i c c' _
    cases hs with
    | acquire i hidle hflag =>
      have honly : ∀ m : Fin n,
          Function.update c.th i ThreadPhase.holding m = ThreadPhase.holding →
          m = i := by
        intro m hm
        by_cases hmi : m = i
        · exact hmi
        · rw [Function.update_noteq hmi] at hm
          have := ih.1 m hm
          rw [hflag] at this
          exact absurd this (by simp)
      refine ⟨?_, ?_⟩
      · intro k _
        simp [AtomicBool.compare_and_swap, hflag]
      · intro k l hk hl
        rw [honly k hk, honly l hl]
    | casFail i hidle hflag =>
      refine ⟨?_, ?_⟩
      · intro k _
        simp [AtomicBool.compare_and_swap, hflag]
      · intro k l hk hl
        exact ih.2 k l hk hl
    | release i hhold =>
      have hnone : ∀ m : Fin n,
          Function.update c.th i ThreadPhase.idle m ≠ ThreadPhase.holding := by
        intro m hm
        by_cases hmi : m = i
        · subst hmi
          rw [Function.update_same] at hm
          exact absurd hm (by simp)
        · rw [Function.update_noteq hmi] at hm
          exact hmi (ih.2 m i hm hhold)
      refine ⟨?_, ?_⟩
      · intro k hk
        exact absurd hk (hnone k)
      · intro k l hk _
        exact absurd hk (hnone k)

/-- C1: in every configuration reachable by an arbitrary interleaving of
lock()/guard-drop steps of `n` threads against one `Lock<SpinLock, T>`,
no two distinct threads hold live guards simultaneously: at most one live
guard holds a granted acquisition at any time. -/
theorem mutual_exclusion {n : Nat} (c : SysConfig n) (h : SysReachable c)
    (i j : Fin n) (hi : c.th i = ThreadPhase.holding)
    (hj : c.th j = ThreadPhase.holding) : i = j :=
  (sysReachable_mutexInv h).2 i j hi hj

/-- A concrete reachable configuration of two threads: thread 0 has just
acquired the fresh lock by a successful compare-and-swap. -/
def demoConfig : SysConfig 2 :=
  { flag := (AtomicBool.compare_and_swap (SysConfig.init 2).flag false true
      MemOrdering.acquire).2,
    th := Function.update (SysConfig.init 2).th 0 ThreadPhase.holding }

/-- Witness for C1 at a concrete input: in the reachable two-thread
configuration where thread 0 holds the lock, any two holders coincide. -/
theorem mutual_exclusion_witness :
    demoConfig.th 0 = ThreadPhase.holding ∧ (0 : Fin 2) = 0 := by
  have hth : demoConfig.th 0 = ThreadPhase.holding := by
    simp [demoConfig, Function.update_same]
  have hreach : SysReachable demoConfig :=
    SysReachable.step SysReachable.init
      (SysStep.acquire (SysConfig.init 2) 0 rfl rfl)
  exact ⟨hth, mutual_exclusion demoConfig hreach 0 0 hth hth⟩

/-- Characterisation of the spin loop: when `lockAux` returns, the
attempt at index `ws.length` observed Unlocked and its compare-and-swap
stored Locked; every earlier attempt observed Locked (failed); and the
i-th failed attempt was followed by the backoff wait of step `step + i`. -/
theorem lockAux_spec (obs : List Bool) (step : Nat) (ws : List Nat)
    (f : Bool) (h : SpinLock.lockAux obs step = some (ws, f)) :
    f = true ∧
    obs[ws.length]? = some false ∧
    (∀ i, i < ws.length → obs[i]? = some true) ∧
    (∀ i, i < ws.length → ws[i]? = some (Backoff.wait (step + i))) := by
  induction obs generalizing step ws with
  | nil => simp [SpinLock.lockAux] at h
  | cons b rest ih =>
    cases b with
    | false =>
      rw [SpinLock.lockAux] at h
      simp [AtomicBool.compare_and_swap] at h
      obtain ⟨hws, hf⟩ := h
      subst hws
      refine ⟨hf, by simp, ?_, ?_⟩
      · intro i hi
        simp at hi
      · intro i hi
        simp at hi
    | true =>
      rw [SpinLock.lockAux] at h
      rcases hrec : SpinLock.lockAux rest (step + 1) with _ | ⟨ws', f'⟩
      · rw [hrec] at h
        simp [AtomicBool.compare_and_swap] at h
      · rw [hrec] at h
        simp [AtomicBool.compare_and_swap] at h
        obtain ⟨hws, hf⟩ := h
        subst hf
        obtain ⟨ihf, ihget, ihall, ihws⟩ := ih (step + 1) ws' hrec
        rw [← hws]
        refine ⟨ihf, by simpa using ihget, ?_, ?_⟩
        · intro i hi
          cases i with
          | zero => simp
          | succ i' =>
            simp only [List.getElem?_cons_succ]
            exact ihall i' (by simpa using hi)
        · intro i hi
          cases i with
          | zero => simp
          | succ i' =>
            simp only [List.getElem?_cons_succ]
            have harg : step + (i' + 1) = step + 1 + i' := by omega
            rw [harg]
            exact ihws i' (by simpa using hi)

/-- C6: whenever `SpinLock::lock` returns (for any interference pattern
`obs`, the flag value each compare-and-swap attempt observes), it has
itself performed a successful compare-and-swap from Unlocked to Locked:
the attempt at index `ws.length` observed `false` and left the flag
`true`, so the call never returns without establishing exclusivity. Every
earlier attempt observed `true`, a failed compare-and-swap that leaves
the flag unchanged, and was followed by the backoff wait of its step: the
i-th wait is `Backoff.wait i`, which doubles with each consecutive failed
attempt below the ceiling. -/
theorem spinlock_lock_cas_backoff (obs : List Bool) (ws : List Nat)
    (f : Bool) (h : SpinLock.lock obs = some (ws, f)) :
    (f = true ∧ obs[ws.length]? = some false ∧
      AtomicBool.compare_and_swap false false true MemOrdering.acquire =
        (false, true)) ∧
    (∀ i, i < ws.length → obs[i]? = some true) ∧
    (∀ b : Bool,
      (AtomicBool.compare_and_swap b false true MemOrdering.acquire).1 =
        true →
      (AtomicBool.compare_and_swap b false true MemOrdering.acquire).2 =
        b) ∧
    (∀ i, i < ws.length → ws[i]? = some (Backoff.wait i)) ∧
    (∀ i, i + 1 ≤ Backoff.ceiling →
      Backoff.wait (i + 1) = 2 * Backoff.wait i) := by
  obtain ⟨hf, hget, hall, hws⟩ := lockAux_spec obs 0 ws f h
  refine ⟨⟨hf, hget, by simp [AtomicBool.compare_and_swap]⟩, hall,
    by decide, ?_, ?_⟩
  · intro i hi
    simpa using hws i hi
  · intro i hi
    have h1 : min (i + 1) Backoff.ceiling = i + 1 := Nat.min_eq_left hi
    have h2 : min i Backoff.ceiling = i :=
      Nat.min_eq_left (Nat.le_of_succ_le hi)
    simp [Backoff.wait, h1, h2, Nat.pow_succ, Nat.mul_comm]

/-- Witness for C6 at a concrete input: a run of `SpinLock::lock` whose
first two attempts observe Locked (waiting 1 then 2 backoff units) and
whose third attempt succeeds. -/
theorem spinlock_lock_cas_backoff_witness :
    SpinLock.lock [true, true, false] = some ([1, 2], true) ∧
    ([true, true, false] : List Bool)[([1, 2] : List Nat).length]? =
      some false :=
  ⟨by decide,
    (spinlock_lock_cas_backoff [true, true, false] [1, 2] true
      (by decide)).1.2.1⟩

/-- Witness for C3 at a concrete input: from the Locked state, `try_lock`
fails and leaves the flag Locked (unchanged). -/
theorem try_lock_single_cas_witness :
    (SpinLock.try_lock true).1 = Except.error () ∧
    (SpinLock.try_lock true).2 = true :=
  ⟨rfl, (try_lock_single_cas true).2.2 rfl⟩
